import Mathlib

/-! Verification of the Chemharp.rs chemistry library bindings.

The repository's `src/` contains three Rust modules: `cell.rs` (the
`UnitCell` type), `atom.rs` (the `Atom` type) and `errors.rs` (the error
model).  `errors.rs` is self-contained and is embedded directly below.
`cell.rs` and `atom.rs` delegate the actual geometry and periodic-table
computations to the native chemfiles engine (`chfl_cell_*`, `chfl_atom_*`
functions), whose code is not part of this repository; those operations
are modelled from the specification's description of them (construction
of the upper-triangular cell matrix, reading back lengths and angles,
volume, periodic wrapping, and the element-property lookup table).

All floating-point values are modelled as real numbers.
-/

open Real

/-- A 3-component vector of reals, standing for the `[f64; 3]` triples of
the Rust API (lengths, angles, Cartesian vectors). -/
structure Vec3 where
  x : ℝ
  y : ℝ
  z : ℝ

/-- Available unit cell shapes, from `cell.rs` (`CellShape`). -/
inductive CellShape where
  | Orthorhombic
  | Triclinic
  | Infinite
  deriving DecidableEq, Repr

/-- Possible causes of error in chemfiles, from `errors.rs` (`ErrorKind`). -/
inductive ErrorKind where
  | CppStdError
  | ChemfilesCppError
  | MemoryError
  | FileError
  | FormatError
  | SelectionError
  | UTF8PathError
  | NullPtr
  deriving DecidableEq, Repr

/-- Error type for chemfiles, from `errors.rs` (`Error`): an error kind
together with a message describing the error cause. -/
structure Error where
  kind : ErrorKind
  message : String
  deriving DecidableEq, Repr

/-- The status codes returned by the native engine's C API
(`CHFL_STATUS` values referenced in `errors.rs`). -/
inductive CHFL_STATUS where
  | CHFL_SUCCESS
  | CHFL_MEMORY_ERROR
  | CHFL_FILE_ERROR
  | CHFL_FORMAT_ERROR
  | CHFL_SELECTION_ERROR
  | CHFL_GENERIC_ERROR
  | CHFL_CXX_ERROR
  deriving DecidableEq, Repr

/-- The status-to-kind mapping of `impl From<CHFL_STATUS> for Error` in
`errors.rs`, inlined with its `unreachable!()` arm for `CHFL_SUCCESS`
represented as `none` (that arm is never taken by `check`). -/
def errorKindFromStatus : CHFL_STATUS → Option ErrorKind
  | .CHFL_CXX_ERROR => some .CppStdError
  | .CHFL_GENERIC_ERROR => some .ChemfilesCppError
  | .CHFL_MEMORY_ERROR => some .MemoryError
  | .CHFL_FILE_ERROR => some .FileError
  | .CHFL_FORMAT_ERROR => some .FormatError
  | .CHFL_SELECTION_ERROR => some .SelectionError
  | .CHFL_SUCCESS => none

/-- The function `check` from `errors.rs`: check the return value of a C function and
build the error if needed.  The Rust code reads the engine's last-error
message through the global `Error::last_error()`; in this pure embedding
that engine state is passed explicitly as `last_error`. -/
def check (status : CHFL_STATUS) (last_error : String) : Except Error Unit :=
  if h : status = .CHFL_SUCCESS then
    .ok ()
  else
    .error ⟨(errorKindFromStatus status).get
      (by cases status <;> simp_all [errorKindFromStatus]), last_error⟩

/-- Degrees to radians, as used by the crystallographic basis
construction (the spec's formulas take `alpha`, `beta`, `gamma` in
radians while the API stores degrees). -/
noncomputable def deg2rad (x : ℝ) : ℝ := x * Real.pi / 180

/-- Radians to degrees, used when reading angles back from the matrix. -/
noncomputable def rad2deg (x : ℝ) : ℝ := x * 180 / Real.pi

/-- The upper-triangular matricial representation of a unit cell,
documented in `cell.rs`:
row 1 is `(ax, bx, cx)`, row 2 is `(0, b_y, cy)`, row 3 is `(0, 0, cz)`;
the basis vectors are the columns `a = (ax,0,0)`, `b = (bx,b_y,0)`,
`c = (cx,cy,cz)`. -/
structure CellMatrix where
  ax : ℝ
  bx : ℝ
  cx : ℝ
  b_y : ℝ
  cy : ℝ
  cz : ℝ

/-- Modelled from the spec: the radicand of the derived `c_z` entry in the
standard crystallographic basis construction, `c² - c_x² - c_y²` (the
"derived `c_z` term"). -/
noncomputable def czTerm (lengths angles : Vec3) : ℝ :=
  let c := lengths.z
  let alpha := deg2rad angles.x
  let beta := deg2rad angles.y
  let gamma := deg2rad angles.z
  let cx := c * Real.cos beta
  let cy := c * (Real.cos alpha - Real.cos beta * Real.cos gamma) / Real.sin gamma
  c ^ 2 - cx ^ 2 - cy ^ 2

/-- Modelled from the spec: the standard crystallographic basis
construction used by the native engine behind `chfl_cell_triclinic` and
`chfl_cell_set_angles`:
`a_x = a`, `b_x = b·cos γ`, `b_y = b·sin γ`, `c_x = c·cos β`,
`c_y = c·(cos α - cos β·cos γ)/sin γ`, `c_z = sqrt(c² - c_x² - c_y²)`,
with the radicand clamped to 0 when negative (here `Real.sqrt` of a
negative number is 0 already). -/
noncomputable def cellMatrixFrom (lengths angles : Vec3) : CellMatrix :=
  let a := lengths.x
  let b := lengths.y
  let c := lengths.z
  let alpha := deg2rad angles.x
  let beta := deg2rad angles.y
  let gamma := deg2rad angles.z
  { ax := a
    bx := b * Real.cos gamma
    cx := c * Real.cos beta
    b_y := b * Real.sin gamma
    cy := c * (Real.cos alpha - Real.cos beta * Real.cos gamma) / Real.sin gamma
    cz := Real.sqrt (czTerm lengths angles) }

/-- A unit cell: the upper-triangular matrix is the single source of
truth, together with the shape tag (`cell.rs` `UnitCell`, state held by
the native engine and modelled from the spec). -/
structure UnitCell where
  matrix : CellMatrix
  shape : CellShape

namespace UnitCell

/-- Rust `UnitCell::new(lengths)` — modelled from the spec: an Orthorhombic
cell whose matrix is the diagonal of the given lengths (angles fixed at
90°); the original performs no validation of the lengths. -/
noncomputable def new (lengths : Vec3) : UnitCell :=
  { matrix := { ax := lengths.x, bx := 0, cx := 0, b_y := lengths.y, cy := 0, cz := lengths.z }
    shape := .Orthorhombic }

/-- Rust `UnitCell::triclinic(lengths, angles)` — modelled from the spec: a
Triclinic cell whose matrix is rebuilt by the crystallographic basis
construction. -/
noncomputable def triclinic (lengths angles : Vec3) : UnitCell :=
  { matrix := cellMatrixFrom lengths angles
    shape := .Triclinic }

/-- Rust `UnitCell::set_shape` — modelled from the spec: setting Orthorhombic
snaps angles to 90° (rebuilding the matrix from the column norms),
setting Triclinic or Infinite keeps the matrix untouched. -/
noncomputable def set_shape (cell : UnitCell) (shape : CellShape) : UnitCell :=
  match shape with
  | .Orthorhombic =>
    { matrix := { ax := Real.sqrt (cell.matrix.ax ^ 2), bx := 0, cx := 0,
                  b_y := Real.sqrt (cell.matrix.bx ^ 2 + cell.matrix.b_y ^ 2), cy := 0,
                  cz := Real.sqrt (cell.matrix.cx ^ 2 + cell.matrix.cy ^ 2 + cell.matrix.cz ^ 2) }
      shape := .Orthorhombic }
  | s => { cell with shape := s }

/-- Rust `UnitCell::infinite()` from `cell.rs`: `new([0,0,0])` followed by
`set_shape(Infinite)`. -/
noncomputable def infinite : UnitCell :=
  set_shape (new ⟨0, 0, 0⟩) .Infinite

/-- Rust `UnitCell::lengths()` — modelled from the spec: the norms of the three
matrix columns; Infinite cells report `(0,0,0)` regardless of any stored
matrix. -/
noncomputable def lengths (cell : UnitCell) : Vec3 :=
  if cell.shape = .Infinite then ⟨0, 0, 0⟩
  else
    ⟨Real.sqrt (cell.matrix.ax ^ 2),
     Real.sqrt (cell.matrix.bx ^ 2 + cell.matrix.b_y ^ 2),
     Real.sqrt (cell.matrix.cx ^ 2 + cell.matrix.cy ^ 2 + cell.matrix.cz ^ 2)⟩

/-- Rust `UnitCell::angles()` — modelled from the spec: for Triclinic cells,
recovered from the matrix via dot products of the basis vectors (`alpha`
between `b` and `c`, `beta` between `a` and `c`, `gamma` between `a` and
`b`), converted to degrees; Orthorhombic and Infinite cells report
exactly `(90,90,90)`. -/
noncomputable def angles (cell : UnitCell) : Vec3 :=
  if cell.shape = .Triclinic then
    let m := cell.matrix
    let na := Real.sqrt (m.ax ^ 2)
    let nb := Real.sqrt (m.bx ^ 2 + m.b_y ^ 2)
    let nc := Real.sqrt (m.cx ^ 2 + m.cy ^ 2 + m.cz ^ 2)
    ⟨rad2deg (Real.arccos ((m.bx * m.cx + m.b_y * m.cy) / (nb * nc))),
     rad2deg (Real.arccos ((m.ax * m.cx) / (na * nc))),
     rad2deg (Real.arccos ((m.ax * m.bx) / (na * nb)))⟩
  else ⟨90, 90, 90⟩

/-- Rust `UnitCell::set_angles` — modelled from the spec: legal only when the
shape is Triclinic, in which case the matrix is rebuilt from the current
lengths and the new angles; otherwise it fails (the engine's thrown error
surfaces through the binding as a `ChemfilesCppError`) and the cell is
left unchanged.  Mirrors the Rust `&mut self -> Result<()>` signature as
a `(new state, result)` pair. -/
noncomputable def set_angles (cell : UnitCell) (a : Vec3) : UnitCell × Except Error Unit :=
  if cell.shape = .Triclinic then
    ({ matrix := cellMatrixFrom cell.lengths a, shape := .Triclinic }, .ok ())
  else
    (cell, .error ⟨.ChemfilesCppError, "can not set angles of a non triclinic cell"⟩)

/-- Rust `UnitCell::volume()` — modelled from the spec: the product of the
three diagonal matrix entries; 0 by convention for Infinite cells. -/
noncomputable def volume (cell : UnitCell) : ℝ :=
  if cell.shape = .Infinite then 0
  else cell.matrix.ax * cell.matrix.b_y * cell.matrix.cz

/-- Rust `UnitCell::wrap(vector)` — modelled from the spec: convert to
fractional coordinates by triangular back-substitution, subtract the
nearest integer componentwise, convert back to Cartesian; the identity
for Infinite cells. -/
noncomputable def wrap (cell : UnitCell) (v : Vec3) : Vec3 :=
  if cell.shape = .Infinite then v
  else
    let m := cell.matrix
    let f3 := v.z / m.cz
    let f2 := (v.y - m.cy * f3) / m.b_y
    let f1 := (v.x - m.bx * f2 - m.cx * f3) / m.ax
    let g1 := f1 - (round f1 : ℤ)
    let g2 := f2 - (round f2 : ℤ)
    let g3 := f3 - (round f3 : ℤ)
    ⟨m.ax * g1 + m.bx * g2 + m.cx * g3, m.b_y * g2 + m.cy * g3, m.cz * g3⟩

end UnitCell

/-- An entry of the external element property table (full element name,
atomic mass, Van der Waals radius, covalent radius, atomic number). -/
structure ElementData where
  full_name : String
  mass : ℝ
  vdw : ℝ
  covalent : ℝ
  number : ℤ

/-- Modelled from the spec: the external element property table consumed
through a lookup-by-symbol contract (its full data source is out of
scope); only the entries the specification cites are listed, and an
unrecognized symbol yields `none`. -/
noncomputable def elementLookup (symbol : String) : Option ElementData :=
  if symbol = "He" then some ⟨"Helium", 4.002602, 1.4, 0.32, 2⟩
  else if symbol = "Zn" then some ⟨"Zinc", 65.38, 2.1, 1.18, 30⟩
  else none

/-- An atom: a mutable name and type plus the scalar physical properties
(`atom.rs` `Atom`, state held by the native engine and modelled from the
spec). -/
structure Atom where
  name : String
  atom_type : String
  mass : ℝ
  charge : ℝ

namespace Atom

/-- Rust `Atom::new(name)` — modelled from the spec: the name seeds the type
with the same value; the mass is seeded from the element table (0 when
the symbol is unrecognized) and the charge starts at 0. -/
noncomputable def new (name : String) : Atom :=
  { name := name
    atom_type := name
    mass := ((elementLookup name).map ElementData.mass).getD 0
    charge := 0 }

/-- Rust `Atom::full_name()` — modelled from the spec: the full element name
looked up from the current type; the empty string when the type is not a
recognized element symbol. -/
noncomputable def full_name (a : Atom) : String :=
  ((elementLookup a.atom_type).map ElementData.full_name).getD ""

/-- Rust `Atom::vdw_radius()` — modelled from the spec: the Van der Waals
radius looked up from the current type; `-1` when unrecognized. -/
noncomputable def vdw_radius (a : Atom) : ℝ :=
  ((elementLookup a.atom_type).map ElementData.vdw).getD (-1)

/-- Rust `Atom::covalent_radius()` — modelled from the spec: the covalent
radius looked up from the current type; `-1` when unrecognized. -/
noncomputable def covalent_radius (a : Atom) : ℝ :=
  ((elementLookup a.atom_type).map ElementData.covalent).getD (-1)

/-- Rust `Atom::atomic_number()` — modelled from the spec: the atomic number
looked up from the current type; `-1` when unrecognized. -/
noncomputable def atomic_number (a : Atom) : ℤ :=
  ((elementLookup a.atom_type).map ElementData.number).getD (-1)

end Atom

/-- C10: `check(status)` returns `Ok(())` exactly when the status is
`CHFL_SUCCESS`; otherwise it returns an `Error` whose kind is determined
solely by the status code (CXX → CppStdError, GENERIC →
ChemfilesCppError, MEMORY → MemoryError, FILE → FileError, FORMAT →
FormatError, SELECTION → SelectionError) and whose message is the
engine's last-error string. -/
theorem spec_check_status_mapping (s : CHFL_STATUS) (msg : String) :
    (check s msg = .ok () ↔ s = .CHFL_SUCCESS) ∧
    check .CHFL_CXX_ERROR msg = .error ⟨.CppStdError, msg⟩ ∧
    check .CHFL_GENERIC_ERROR msg = .error ⟨.ChemfilesCppError, msg⟩ ∧
    check .CHFL_MEMORY_ERROR msg = .error ⟨.MemoryError, msg⟩ ∧
    check .CHFL_FILE_ERROR msg = .error ⟨.FileError, msg⟩ ∧
    check .CHFL_FORMAT_ERROR msg = .error ⟨.FormatError, msg⟩ ∧
    check .CHFL_SELECTION_ERROR msg = .error ⟨.SelectionError, msg⟩ := by
  refine ⟨?_, rfl, rfl, rfl, rfl, rfl, rfl⟩
  cases s <;> simp [check, errorKindFromStatus]

/-- C8: for an Atom whose type is not a recognized element symbol, the
derived lookups return the sentinel values (empty full name, radii `-1`,
atomic number `-1`) rather than erroring, and `Atom::new("He").mass()`
is `4.002602` within `1e-6`. -/
theorem spec_atom_lookup_sentinels :
    (Atom.new "Xx").full_name = "" ∧
    (Atom.new "Xx").vdw_radius = -1 ∧
    (Atom.new "Xx").covalent_radius = -1 ∧
    (Atom.new "Xx").atomic_number = -1 ∧
    |(Atom.new "He").mass - 4.002602| ≤ 1e-6 := by
  refine ⟨rfl, rfl, rfl, rfl, ?_⟩
  have h : (Atom.new "He").mass = 4.002602 := rfl
  rw [h]
  norm_num

/-- C5: the orthorhombic cell `UnitCell::new([a,b,c])` has volume exactly
`a*b*c` (the product of the three diagonal entries of the matrix). -/
theorem spec_new_volume (a b c : ℝ) :
    (UnitCell.new ⟨a, b, c⟩).volume = a * b * c := by
  simp [UnitCell.volume, UnitCell.new]

/-- C4: the infinite cell has shape `Infinite`, lengths `(0,0,0)`, angles
`(90,90,90)`, volume `0`, and its wrap is the identity on every vector. -/
theorem spec_infinite_cell :
    UnitCell.infinite.shape = .Infinite ∧
    UnitCell.infinite.lengths = ⟨0, 0, 0⟩ ∧
    UnitCell.infinite.angles = ⟨90, 90, 90⟩ ∧
    UnitCell.infinite.volume = 0 ∧
    ∀ v : Vec3, UnitCell.infinite.wrap v = v := by
  refine ⟨rfl, ?_, ?_, ?_, fun v => ?_⟩ <;>
    simp [UnitCell.infinite, UnitCell.set_shape, UnitCell.new, UnitCell.lengths,
      UnitCell.angles, UnitCell.volume, UnitCell.wrap]

/-- C7 counterexample: constructing a cell from lengths containing a
negative value does not fail — `UnitCell::new([-1,1,1])` yields a
well-formed Orthorhombic cell with angles `(90,90,90)` (the original
performs no validation, and `errors.rs` has no `InvalidArgument` kind at
all), contradicting the claim that construction errors on negative
lengths. -/
theorem spec_new_negative_no_error :
    (UnitCell.new ⟨-1, 1, 1⟩).shape = .Orthorhombic ∧
    (UnitCell.new ⟨-1, 1, 1⟩).angles = ⟨90, 90, 90⟩ ∧
    (UnitCell.new ⟨-1, 1, 1⟩).matrix.ax = -1 := by
  exact ⟨rfl, rfl, rfl⟩

/-- C7 (amended): `UnitCell::new(lengths)` always returns an Orthorhombic
cell with angles fixed at 90° and the given lengths on the matrix
diagonal; no validation is performed, and for nonnegative lengths
`lengths()` reads back the given triple. -/
theorem spec_new_orthorhombic (L : Vec3) :
    (UnitCell.new L).shape = .Orthorhombic ∧
    (UnitCell.new L).angles = ⟨90, 90, 90⟩ ∧
    (UnitCell.new L).matrix.ax = L.x ∧
    (UnitCell.new L).matrix.b_y = L.y ∧
    (UnitCell.new L).matrix.cz = L.z ∧
    (0 ≤ L.x → 0 ≤ L.y → 0 ≤ L.z → (UnitCell.new L).lengths = L) := by
  refine ⟨rfl, rfl, rfl, rfl, rfl, fun hx hy hz => ?_⟩
  obtain ⟨x, y, z⟩ := L
  simp only [UnitCell.lengths, UnitCell.new, reduceCtorEq, if_false, Vec3.mk.injEq]
  refine ⟨?_, ?_, ?_⟩
  · exact Real.sqrt_sq hx
  · rw [show (0:ℝ) ^ 2 + y ^ 2 = y ^ 2 by ring]
    exact Real.sqrt_sq hy
  · rw [show (0:ℝ) ^ 2 + 0 ^ 2 + z ^ 2 = z ^ 2 by ring]
    exact Real.sqrt_sq hz

/-- C7 witness: the amended statement applied to the concrete lengths
`(2,3,4)`. -/
theorem spec_new_orthorhombic_witness :
    (UnitCell.new ⟨2, 3, 4⟩).lengths = ⟨2, 3, 4⟩ :=
  (spec_new_orthorhombic ⟨2, 3, 4⟩).2.2.2.2.2 (by norm_num) (by norm_num) (by norm_num)

/-- Wrapping in an orthorhombic cell built by `new` acts componentwise:
each coordinate is reduced modulo the corresponding length via the
round-to-nearest fractional coordinate. -/
theorem wrap_new_eq (a b c : ℝ) (v : Vec3) :
    (UnitCell.new ⟨a, b, c⟩).wrap v =
      ⟨a * (v.x / a - (round (v.x / a) : ℤ)),
       b * (v.y / b - (round (v.y / b) : ℤ)),
       c * (v.z / c - (round (v.z / c) : ℤ))⟩ := by
  simp [UnitCell.wrap, UnitCell.new]

/-- C6: in the orthorhombic cell with lengths `(10,20,30)`, wrapping the
vector `(12.0, 5.2, -45.3)` yields `(2.0, 5.2, 14.7)` within `1e-9` in
each component. -/
theorem spec_wrap_example :
    |((UnitCell.new ⟨10, 20, 30⟩).wrap ⟨12, 5.2, -45.3⟩).x - 2| ≤ 1e-9 ∧
    |((UnitCell.new ⟨10, 20, 30⟩).wrap ⟨12, 5.2, -45.3⟩).y - 5.2| ≤ 1e-9 ∧
    |((UnitCell.new ⟨10, 20, 30⟩).wrap ⟨12, 5.2, -45.3⟩).z - 14.7| ≤ 1e-9 := by
  rw [wrap_new_eq]
  have h1 : round ((12 : ℝ) / 10) = 1 := by
    rw [round_eq]; norm_num
  have h2 : round ((5.2 : ℝ) / 20) = 0 := by
    rw [round_eq]; norm_num
  have h3 : round ((-45.3 : ℝ) / 30) = -2 := by
    rw [round_eq]; norm_num
  refine ⟨?_, ?_, ?_⟩
  · show |10 * ((12 : ℝ) / 10 - (round ((12 : ℝ) / 10) : ℤ)) - 2| ≤ 1e-9
    rw [h1]; norm_num
  · show |20 * ((5.2 : ℝ) / 20 - (round ((5.2 : ℝ) / 20) : ℤ)) - 5.2| ≤ 1e-9
    rw [h2]; norm_num
  · show |30 * ((-45.3 : ℝ) / 30 - (round ((-45.3 : ℝ) / 30) : ℤ)) - 14.7| ≤ 1e-9
    rw [h3]; norm_num

/-- C2: an Orthorhombic cell reports angles exactly `(90,90,90)`, and
`set_angles` with any triple other than `(90,90,90)` fails (the invalid
operation surfacing as the engine error kind) and leaves the cell
unchanged. -/
theorem spec_orthorhombic_angles (cell : UnitCell) (a : Vec3)
    (hshape : cell.shape = .Orthorhombic) (_hne : a ≠ ⟨90, 90, 90⟩) :
    cell.angles = ⟨90, 90, 90⟩ ∧
    (cell.set_angles a).1 = cell ∧
    ∃ e : Error, (cell.set_angles a).2 = .error e ∧ e.kind = .ChemfilesCppError := by
  refine ⟨?_, ?_, ?_⟩
  · simp [UnitCell.angles, hshape]
  · simp [UnitCell.set_angles, hshape]
  · refine ⟨⟨.ChemfilesCppError, "can not set angles of a non triclinic cell"⟩, ?_, rfl⟩
    simp [UnitCell.set_angles, hshape]

/-- C2 witness: the orthorhombic cell with lengths `(10,20,30)` and the
non-90 angles `(80,90,100)`. -/
theorem spec_orthorhombic_angles_witness :
    (UnitCell.new ⟨10, 20, 30⟩).angles = ⟨90, 90, 90⟩ ∧
    ((UnitCell.new ⟨10, 20, 30⟩).set_angles ⟨80, 90, 100⟩).1 = UnitCell.new ⟨10, 20, 30⟩ ∧
    ∃ e : Error, ((UnitCell.new ⟨10, 20, 30⟩).set_angles ⟨80, 90, 100⟩).2 = .error e ∧
      e.kind = .ChemfilesCppError :=
  spec_orthorhombic_angles (UnitCell.new ⟨10, 20, 30⟩) ⟨80, 90, 100⟩ rfl
    (by intro h; rw [Vec3.mk.injEq] at h; norm_num at h)

/-- A vector whose fractional coordinates are already reduced (each with
round 0, and zero along any degenerate matrix direction) is a fixed point
of `wrap`. -/
theorem wrap_fixed_point (m : CellMatrix) (sh : CellShape) (hsh : ¬ sh = CellShape.Infinite)
    (g1 g2 g3 : ℝ)
    (r1 : round g1 = 0) (r2 : round g2 = 0) (r3 : round g3 = 0)
    (z1 : m.ax = 0 → g1 = 0) (z2 : m.b_y = 0 → g2 = 0) (z3 : m.cz = 0 → g3 = 0) :
    UnitCell.wrap ⟨m, sh⟩
        ⟨m.ax * g1 + m.bx * g2 + m.cx * g3, m.b_y * g2 + m.cy * g3, m.cz * g3⟩ =
      ⟨m.ax * g1 + m.bx * g2 + m.cx * g3, m.b_y * g2 + m.cy * g3, m.cz * g3⟩ := by
  simp only [UnitCell.wrap, if_neg hsh]
  have e3 : m.cz * g3 / m.cz = g3 := by
    rcases eq_or_ne m.cz 0 with h | h
    · simp [h, z3 h]
    · exact mul_div_cancel_left₀ _ h
  rw [e3]
  rw [show m.b_y * g2 + m.cy * g3 - m.cy * g3 = m.b_y * g2 by ring]
  have e2 : m.b_y * g2 / m.b_y = g2 := by
    rcases eq_or_ne m.b_y 0 with h | h
    · simp [h, z2 h]
    · exact mul_div_cancel_left₀ _ h
  rw [e2]
  rw [show m.ax * g1 + m.bx * g2 + m.cx * g3 - m.bx * g2 - m.cx * g3 = m.ax * g1 by ring]
  have e1 : m.ax * g1 / m.ax = g1 := by
    rcases eq_or_ne m.ax 0 with h | h
    · simp [h, z1 h]
    · exact mul_div_cancel_left₀ _ h
  rw [e1, r1, r2, r3]
  simp

/-- C3: wrapping is idempotent — for every cell and every vector,
`wrap(wrap(v)) = wrap(v)`. -/
theorem spec_wrap_idempotent (cell : UnitCell) (v : Vec3) :
    cell.wrap (cell.wrap v) = cell.wrap v := by
  by_cases hs : cell.shape = CellShape.Infinite
  · simp [UnitCell.wrap, hs]
  · obtain ⟨m, sh⟩ := cell
    simp only at hs
    set f3 := v.z / m.cz with hf3
    set f2 := (v.y - m.cy * f3) / m.b_y with hf2
    set f1 := (v.x - m.bx * f2 - m.cx * f3) / m.ax with hf1
    set g1 := f1 - ((round f1 : ℤ) : ℝ) with hg1
    set g2 := f2 - ((round f2 : ℤ) : ℝ) with hg2
    set g3 := f3 - ((round f3 : ℤ) : ℝ) with hg3
    have hwrap : UnitCell.wrap ⟨m, sh⟩ v =
        ⟨m.ax * g1 + m.bx * g2 + m.cx * g3, m.b_y * g2 + m.cy * g3, m.cz * g3⟩ := by
      simp only [UnitCell.wrap, if_neg hs]
    rw [hwrap]
    refine wrap_fixed_point m sh hs g1 g2 g3 ?_ ?_ ?_ ?_ ?_ ?_
    · rw [hg1, round_sub_int, sub_self]
    · rw [hg2, round_sub_int, sub_self]
    · rw [hg3, round_sub_int, sub_self]
    · intro h
      rw [hg1, hf1, h, div_zero]
      simp
    · intro h
      rw [hg2, hf2, h, div_zero]
      simp
    · intro h
      rw [hg3, hf3, h, div_zero]
      simp

/-- Converting degrees to radians and back is the identity. -/
theorem rad2deg_deg2rad (x : ℝ) : rad2deg (deg2rad x) = x := by
  rw [rad2deg, deg2rad]
  field_simp

/-- An angle strictly between 0° and 180° lies strictly between 0 and π
radians. -/
theorem deg2rad_mem (x : ℝ) (h0 : 0 < x) (h1 : x < 180) :
    0 < deg2rad x ∧ deg2rad x < Real.pi := by
  constructor
  · exact div_pos (mul_pos h0 Real.pi_pos) (by norm_num)
  · rw [deg2rad, div_lt_iff₀ (by norm_num : (0:ℝ) < 180)]
    nlinarith [Real.pi_pos]

/-- Core round-trip computation: a Triclinic cell whose matrix entries
satisfy the crystallographic construction equations (with strictly
positive lengths, angles in `(0, π)` radians, and a strictly positive
`c_z` radicand) reads back the original lengths exactly, and its angles
read back as the original radian angles converted to degrees. -/
theorem roundtrip_core (a b c ar br gr bx cx b_y cy cz : ℝ)
    (ha : 0 < a) (hb : 0 < b) (hc : 0 < c)
    (ha0 : 0 ≤ ar) (ha1 : ar ≤ Real.pi)
    (hb0 : 0 ≤ br) (hb1 : br ≤ Real.pi)
    (hg0 : 0 < gr) (hg1 : gr < Real.pi)
    (hbx : bx = b * Real.cos gr) (hcx : cx = c * Real.cos br)
    (hb_y : b_y = b * Real.sin gr)
    (hcy : cy = c * (Real.cos ar - Real.cos br * Real.cos gr) / Real.sin gr)
    (hrad : 0 < c ^ 2 - cx ^ 2 - cy ^ 2)
    (hcz : cz = Real.sqrt (c ^ 2 - cx ^ 2 - cy ^ 2)) :
    UnitCell.lengths ⟨⟨a, bx, cx, b_y, cy, cz⟩, .Triclinic⟩ = ⟨a, b, c⟩ ∧
    UnitCell.angles ⟨⟨a, bx, cx, b_y, cy, cz⟩, .Triclinic⟩ =
      ⟨rad2deg ar, rad2deg br, rad2deg gr⟩ := by
  have hsin : 0 < Real.sin gr := Real.sin_pos_of_pos_of_lt_pi hg0 hg1
  have n1 : Real.sqrt (a ^ 2) = a := Real.sqrt_sq ha.le
  have n2 : Real.sqrt (bx ^ 2 + b_y ^ 2) = b := by
    rw [hbx, hb_y,
      show (b * Real.cos gr) ^ 2 + (b * Real.sin gr) ^ 2 = b ^ 2 by
        linear_combination b ^ 2 * Real.sin_sq_add_cos_sq gr]
    exact Real.sqrt_sq hb.le
  have n3 : Real.sqrt (cx ^ 2 + cy ^ 2 + cz ^ 2) = c := by
    rw [hcz, Real.sq_sqrt hrad.le,
      show cx ^ 2 + cy ^ 2 + (c ^ 2 - cx ^ 2 - cy ^ 2) = c ^ 2 by ring]
    exact Real.sqrt_sq hc.le
  constructor
  · rw [show UnitCell.lengths ⟨⟨a, bx, cx, b_y, cy, cz⟩, .Triclinic⟩ =
        ⟨Real.sqrt (a ^ 2), Real.sqrt (bx ^ 2 + b_y ^ 2),
         Real.sqrt (cx ^ 2 + cy ^ 2 + cz ^ 2)⟩ from rfl, n1, n2, n3]
  · rw [show UnitCell.angles ⟨⟨a, bx, cx, b_y, cy, cz⟩, .Triclinic⟩ =
        ⟨rad2deg (Real.arccos ((bx * cx + b_y * cy) /
            (Real.sqrt (bx ^ 2 + b_y ^ 2) * Real.sqrt (cx ^ 2 + cy ^ 2 + cz ^ 2)))),
         rad2deg (Real.arccos ((a * cx) /
            (Real.sqrt (a ^ 2) * Real.sqrt (cx ^ 2 + cy ^ 2 + cz ^ 2)))),
         rad2deg (Real.arccos ((a * bx) /
            (Real.sqrt (a ^ 2) * Real.sqrt (bx ^ 2 + b_y ^ 2))))⟩ from rfl,
      n1, n2, n3]
    have d_alpha : (bx * cx + b_y * cy) / (b * c) = Real.cos ar := by
      rw [hbx, hcx, hb_y, hcy, div_eq_iff (mul_pos hb hc).ne']
      field_simp
      ring
    have d_beta : a * cx / (a * c) = Real.cos br := by
      rw [hcx, div_eq_iff (mul_pos ha hc).ne']
      ring
    have d_gamma : a * bx / (a * b) = Real.cos gr := by
      rw [hbx, div_eq_iff (mul_pos ha hb).ne']
      ring
    rw [d_alpha, d_beta, d_gamma, Real.arccos_cos ha0 ha1, Real.arccos_cos hb0 hb1,
      Real.arccos_cos hg0.le hg1.le]

/-- Round-trip through `triclinic` is exact over the reals: with strictly
positive lengths, angles strictly between 0° and 180°, and a strictly
positive derived `c_z` term, `lengths()` and `angles()` reproduce the
construction inputs. -/
theorem triclinic_roundtrip_exact (L A : Vec3)
    (hlx : 0 < L.x) (hly : 0 < L.y) (hlz : 0 < L.z)
    (hax : 0 < A.x) (hax' : A.x < 180)
    (hay : 0 < A.y) (hay' : A.y < 180)
    (haz : 0 < A.z) (haz' : A.z < 180)
    (hcz : 0 < czTerm L A) :
    (UnitCell.triclinic L A).lengths = L ∧ (UnitCell.triclinic L A).angles = A := by
  obtain ⟨a, b, c⟩ := L
  obtain ⟨ad, bd, gd⟩ := A
  simp only at hlx hly hlz hax hax' hay hay' haz haz'
  obtain ⟨hA0, hA1⟩ := deg2rad_mem ad hax hax'
  obtain ⟨hB0, hB1⟩ := deg2rad_mem bd hay hay'
  obtain ⟨hG0, hG1⟩ := deg2rad_mem gd haz haz'
  have hrad : 0 < c ^ 2 - (c * Real.cos (deg2rad bd)) ^ 2 -
      (c * (Real.cos (deg2rad ad) - Real.cos (deg2rad bd) * Real.cos (deg2rad gd)) /
        Real.sin (deg2rad gd)) ^ 2 := hcz
  have key := roundtrip_core a b c (deg2rad ad) (deg2rad bd) (deg2rad gd)
    (b * Real.cos (deg2rad gd)) (c * Real.cos (deg2rad bd))
    (b * Real.sin (deg2rad gd))
    (c * (Real.cos (deg2rad ad) - Real.cos (deg2rad bd) * Real.cos (deg2rad gd)) /
      Real.sin (deg2rad gd))
    (Real.sqrt (c ^ 2 - (c * Real.cos (deg2rad bd)) ^ 2 -
      (c * (Real.cos (deg2rad ad) - Real.cos (deg2rad bd) * Real.cos (deg2rad gd)) /
        Real.sin (deg2rad gd)) ^ 2))
    hlx hly hlz hA0.le hA1.le hB0.le hB1.le hG0 hG1 rfl rfl rfl rfl hrad rfl
  refine ⟨key.1, ?_⟩
  have := key.2
  rw [rad2deg_deg2rad, rad2deg_deg2rad, rad2deg_deg2rad] at this
  exact this

/-- C1 (amended): for every lengths triple with strictly positive
components and angles triple with each angle strictly between 0° and 180°
and the derived `c_z` term positive, the cell built by `triclinic`
satisfies `lengths() == lengths` and `angles() == angles`, each component
within `1e-9` absolute tolerance. -/
theorem spec_triclinic_roundtrip (L A : Vec3)
    (hlx : 0 < L.x) (hly : 0 < L.y) (hlz : 0 < L.z)
    (hax : 0 < A.x) (hax' : A.x < 180)
    (hay : 0 < A.y) (hay' : A.y < 180)
    (haz : 0 < A.z) (haz' : A.z < 180)
    (hcz : 0 < czTerm L A) :
    |(UnitCell.triclinic L A).lengths.x - L.x| ≤ 1e-9 ∧
    |(UnitCell.triclinic L A).lengths.y - L.y| ≤ 1e-9 ∧
    |(UnitCell.triclinic L A).lengths.z - L.z| ≤ 1e-9 ∧
    |(UnitCell.triclinic L A).angles.x - A.x| ≤ 1e-9 ∧
    |(UnitCell.triclinic L A).angles.y - A.y| ≤ 1e-9 ∧
    |(UnitCell.triclinic L A).angles.z - A.z| ≤ 1e-9 := by
  obtain ⟨hl, hn⟩ := triclinic_roundtrip_exact L A hlx hly hlz hax hax' hay hay' haz haz' hcz
  rw [hl, hn]
  norm_num

/-- C1 witness: the round-trip property applied to the concrete cube cell
with lengths `(1,1,1)` and angles `(90,90,90)`. -/
theorem spec_triclinic_roundtrip_witness :
    |(UnitCell.triclinic ⟨1, 1, 1⟩ ⟨90, 90, 90⟩).lengths.x - 1| ≤ 1e-9 ∧
    |(UnitCell.triclinic ⟨1, 1, 1⟩ ⟨90, 90, 90⟩).lengths.y - 1| ≤ 1e-9 ∧
    |(UnitCell.triclinic ⟨1, 1, 1⟩ ⟨90, 90, 90⟩).lengths.z - 1| ≤ 1e-9 ∧
    |(UnitCell.triclinic ⟨1, 1, 1⟩ ⟨90, 90, 90⟩).angles.x - 90| ≤ 1e-9 ∧
    |(UnitCell.triclinic ⟨1, 1, 1⟩ ⟨90, 90, 90⟩).angles.y - 90| ≤ 1e-9 ∧
    |(UnitCell.triclinic ⟨1, 1, 1⟩ ⟨90, 90, 90⟩).angles.z - 90| ≤ 1e-9 :=
  spec_triclinic_roundtrip ⟨1, 1, 1⟩ ⟨90, 90, 90⟩
    (by norm_num) (by norm_num) (by norm_num)
    (by norm_num) (by norm_num) (by norm_num)
    (by norm_num) (by norm_num) (by norm_num)
    (by
      have h90 : deg2rad (90 : ℝ) = Real.pi / 2 := by rw [deg2rad]; ring
      simp [czTerm, h90, Real.cos_pi_div_two])

/-- C1 counterexample: the claim as stated quantifies over every lengths
triple, but with the zero length `b = 0` (lengths `(1,0,1)`, angles
`(90,90,60)`, which satisfy the claim's angle bounds and have a positive
derived `c_z` term) the `b` basis column is the zero vector, so the
recovered `gamma` angle is `arccos 0 = 90°` instead of `60°` — off by 30,
far outside the `1e-9` tolerance. -/
theorem spec_triclinic_roundtrip_counterexample :
    ((0:ℝ) < 90 ∧ (90:ℝ) < 180 ∧ (0:ℝ) < 60 ∧ (60:ℝ) < 180) ∧
    0 < czTerm ⟨1, 0, 1⟩ ⟨90, 90, 60⟩ ∧
    (UnitCell.triclinic ⟨1, 0, 1⟩ ⟨90, 90, 60⟩).angles.z = 90 ∧
    ¬ |(UnitCell.triclinic ⟨1, 0, 1⟩ ⟨90, 90, 60⟩).angles.z - 60| ≤ 1e-9 := by
  have h90 : deg2rad (90 : ℝ) = Real.pi / 2 := by rw [deg2rad]; ring
  have hz : (UnitCell.triclinic ⟨1, 0, 1⟩ ⟨90, 90, 60⟩).angles.z = 90 := by
    have hr : rad2deg (Real.pi / 2) = 90 := by
      rw [rad2deg]
      field_simp
      ring
    simp [UnitCell.angles, UnitCell.triclinic, cellMatrixFrom, Real.arccos_zero, hr]
  refine ⟨by norm_num, ?_, hz, ?_⟩
  · simp [czTerm, h90, Real.cos_pi_div_two]
  · rw [hz]
    norm_num
